import Mathlib

/-!
Shallow embedding of the gift-exchange web application (`src/app.py`) and
verification of the claims about it.

The application is a Flask app over three PostgreSQL tables (`participants`,
`wishes`, `foods`).  We embed the relational state as Lean structures holding
lists of rows plus the next value of each SERIAL sequence, and each route
handler as a pure function on that state.  External effects are made explicit:

* the Cloudinary upload attempt is a parameter `remote : Option String`
  (the secure url on success, `none` when unconfigured or when the caught
  exception path is taken — `upload_to_cloudinary`, app.py lines 59-75);
* the local `file.save(...)` call, which the source does NOT wrap in any
  try/except, is a parameter `localOk : Bool`; when it is false the handler
  raises, which we embed as `Except.error`;
* the session cookie is an `Option Nat` argument (the stored `user_id`);
* flash messages and redirects are returned as data.
-/

namespace Intercambio

/-- A row of the `participants` table (app.py lines 103-111): serial id,
unique name, plaintext code, and the optional `gives_to` reference. -/
structure Participant where
  id : Nat
  name : String
  code : String
  givesTo : Option Nat
deriving DecidableEq, Repr

/-- A row of the `wishes` table (app.py lines 114-124). -/
structure Wish where
  id : Nat
  participant_id : Nat
  wish1 : String
  wish1_img : Option String
  wish2 : String
  wish2_img : Option String
deriving DecidableEq, Repr

/-- A row of the `foods` table (app.py lines 127-135). -/
structure Food where
  id : Nat
  person_name : String
  title : String
  description : String
  image_filename : Option String
deriving DecidableEq, Repr

/-- The relational store: the three tables together with the next value of
each SERIAL primary-key sequence (PostgreSQL sequences start at 1). -/
structure AppState where
  participants : List Participant
  pSeq : Nat
  wishes : List Wish
  wSeq : Nat
  foods : List Food
  fSeq : Nat
deriving DecidableEq, Repr

/-- The store right after `CREATE TABLE IF NOT EXISTS` on a fresh database. -/
def emptyState : AppState := ⟨[], 1, [], 1, [], 1⟩

/-- `ALLOWED_EXTENSIONS` (app.py line 31). -/
def ALLOWED_EXTENSIONS : List String := ["png", "jpg", "jpeg", "gif", "webp", "bmp"]

/-- Python `str.strip()`: drop whitespace from both ends.  Defined
structurally on the character list so that it evaluates by kernel
reduction (the library `String.trim` is position-based and does not). -/
def pyStrip (s : String) : String :=
  String.mk (((s.data.dropWhile Char.isWhitespace).reverse.dropWhile Char.isWhitespace).reverse)

/-- Python `str.lower()`, structurally on the character list. -/
def strToLower (s : String) : String := String.mk (s.data.map Char.toLower)

/-- The extension of a filename: `filename.rsplit(".", 1)[1]`, i.e. the
characters after the last dot (meaningful only when the name has a dot). -/
def extLast (s : String) : String :=
  String.mk ((s.data.reverse.takeWhile (fun c => c ≠ '.')).reverse)

/-- `allowed_file` (app.py lines 44-49): the name is nonempty (Python
truthiness), contains a dot, and its lower-cased extension is in the
allow-list. -/
def allowed_file (filename : String) : Bool :=
  filename != "" && filename.data.contains '.' &&
    ALLOWED_EXTENSIONS.contains (strToLower (extLast filename))

/-- `is_cloud_url` (app.py lines 52-56). -/
def is_cloud_url (path : String) : Bool :=
  path != "" &&
    ("http://".data.isPrefixOf path.data || "https://".data.isPrefixOf path.data)

/-- Model of `werkzeug.utils.secure_filename` (third-party sanitizer):
keeps alphanumerics and the characters `.`, `-`, `_`.  The claims never
depend on the sanitized text, only on it being a deterministic function. -/
def secure_filename (s : String) : String :=
  String.mk (s.data.filter (fun ch => ch.isAlphanum || ch = '.' || ch = '-' || ch = '_'))

/-- `upload_to_cloudinary` (app.py lines 59-75): returns `none` when
`CLOUDINARY_URL` is unconfigured; otherwise returns the outcome of the
remote attempt, where `none` stands for the caught exception (or a missing
`secure_url`).  By construction this helper never raises. -/
def upload_to_cloudinary (configured : Bool) (remote : Option String) : Option String :=
  if configured then remote else none

/-- An uploaded file as the handlers see it (`request.files.get`). -/
structure FileUpload where
  filename : String
deriving DecidableEq, Repr

/-- The outcome of the external upload world for one file: the Cloudinary
result and whether the local `file.save` call would succeed. -/
structure UploadAttempt where
  remote : Option String
  localOk : Bool
deriving DecidableEq, Repr

/-! ## Seed routine `init_db` (app.py lines 94-194) -/

/-- The fixed roster inserted by `init_db` (app.py lines 140-153). -/
def seedParticipants : List (String × String) :=
  [("Miguel", "M123"), ("Mamá", "MA45"), ("Papá Luis", "PL67"),
   ("Abuelita María", "AM89"), ("Luis Consentido", "LC11"), ("Daniela", "DA22"),
   ("Efraín", "EF33"), ("Karla", "KA44"), ("Mariana", "MA55"),
   ("Sandra", "SA66"), ("Alejandro", "AL77"), ("Brenda", "BR88")]

/-- The fixed name-to-name assignment map `asignaciones`
(app.py lines 166-179), in Python dict insertion order. -/
def asignaciones : List (String × String) :=
  [("Miguel", "Brenda"), ("Mamá", "Abuelita María"), ("Papá Luis", "Daniela"),
   ("Abuelita María", "Mariana"), ("Luis Consentido", "Miguel"),
   ("Daniela", "Mamá"), ("Efraín", "Sandra"), ("Karla", "Luis Consentido"),
   ("Mariana", "Karla"), ("Sandra", "Papá Luis"), ("Alejandro", "Efraín"),
   ("Brenda", "Alejandro")]

/-- One `INSERT ... ON CONFLICT (name) DO NOTHING` (app.py lines 155-163).
A conflicting insert adds no row; in either case the SERIAL sequence
advances (PostgreSQL evaluates `nextval` before conflict arbitration). -/
def insertParticipant (s : AppState) (nc : String × String) : AppState :=
  if s.participants.any (fun p => p.name == nc.1) then
    { s with pSeq := s.pSeq + 1 }
  else
    { s with participants := s.participants ++ [⟨s.pSeq, nc.1, nc.2, none⟩],
             pSeq := s.pSeq + 1 }

/-- `SELECT id FROM participants WHERE name = %s` followed by `fetchone()`:
the id of the first row with the given name (app.py lines 183-184). -/
def lookupId (ps : List Participant) (n : String) : Option Nat :=
  (ps.find? (fun p => p.name == n)).map Participant.id

/-- `UPDATE participants SET gives_to = %s WHERE name = %s`
(app.py lines 187-190): every row with the given name gets the target. -/
def setGivesTo (ps : List Participant) (g : String) (i : Nat) : List Participant :=
  ps.map (fun p => if p.name == g then { p with givesTo := some i } else p)

/-- One iteration of the assignment loop (app.py lines 182-190): resolve the
receiver name; if present, write `gives_to` for the giver name, else skip. -/
def applyAssignment (ps : List Participant) (pr : String × String) : List Participant :=
  match lookupId ps pr.2 with
  | some i => setGivesTo ps pr.1 i
  | none => ps

/-- The roster-insert loop of `init_db` (app.py lines 155-163). -/
def insertSeed (s : AppState) : AppState :=
  seedParticipants.foldl insertParticipant s

/-- The assignment loop of `init_db` (app.py lines 182-190). -/
def assignAll (ps : List Participant) : List Participant :=
  asignaciones.foldl applyAssignment ps

/-- `init_db` (app.py lines 94-194): insert the roster, then apply the
name-to-name assignment map.  Only the `participants` table is written. -/
def init_db (s : AppState) : AppState :=
  { insertSeed s with participants := assignAll (insertSeed s).participants }

/-- The store right after the startup call `init_db()` (app.py line 198)
on a fresh database. -/
def seededState : AppState := init_db emptyState

/-- The store after `n` application restarts from a fresh database: each
restart runs `init_db` once more (app.py line 198). -/
def seedN : Nat → AppState
  | 0 => emptyState
  | n + 1 => init_db (seedN n)

/-! ## Session and login (app.py lines 209-267) -/

/-- `get_logged_user` (app.py lines 250-260): `session.get("user_id")` is
`sid`; Python falsiness makes both a missing id and the integer 0 anonymous
(`if not user_id: return None`); otherwise the row is fetched by id. -/
def get_logged_user (s : AppState) (sid : Option Nat) : Option Participant :=
  match sid with
  | none => none
  | some uid =>
    if uid == 0 then none
    else s.participants.find? (fun p => p.id == uid)

/-- The `POST /login` core (app.py lines 224-244): the submitted code is
stripped, then the pair is matched exactly against a stored row
(`SELECT * FROM participants WHERE id = %s AND code = %s`).  The result is
the session content: `some id` records `session["user_id"] = user["id"]`,
`none` means the failure flash and redirect with no session set. -/
def login (s : AppState) (pid : Nat) (code : String) : Option Nat :=
  (s.participants.find? (fun p => p.id == pid && p.code == pyStrip code)).map
    Participant.id

/-! ## Dashboard wish-list save (app.py lines 271-356) -/

/-- The image handling for one wish slot (app.py lines 300-324): keep the
prior reference unless a file with a nonempty, allowed filename is present;
then try Cloudinary, and on `none` fall back to the local save
`file.save(...)`, which is NOT inside any try/except in the source — a
failing save raises, embedded as `Except.error`. -/
def processWishImage (prior : Option String) (file : Option FileUpload)
    (cfg : Bool) (env : UploadAttempt) (slot : Nat) (uid : Nat) :
    Except String (Option String) :=
  match file with
  | none => .ok prior
  | some f =>
    if f.filename != "" && allowed_file f.filename then
      match upload_to_cloudinary cfg env.remote with
      | some url => .ok (some url)
      | none =>
        if env.localOk then
          .ok (some ("w" ++ toString slot ++ "_" ++ toString uid ++ "_" ++
            secure_filename f.filename))
        else
          .error "OSError: file.save failed"
    else
      .ok prior

/-- The form and files of a `POST /dashboard` request. -/
structure DashForm where
  wish1 : String
  wish2 : String
  file1 : Option FileUpload
  file2 : Option FileUpload
deriving DecidableEq, Repr

/-- Where a dashboard POST ends: redirected to login, or saved (success
flash plus redirect back to the dashboard). -/
inductive DashOutcome where
  | loginRedirect
  | saved
deriving DecidableEq, Repr

/-- The row update of the dashboard upsert, `UPDATE wishes SET ... WHERE
participant_id = %s` (app.py lines 328-335): rewrite both texts and both
image references on every row owned by the caller. -/
def updateWishRow (uid : Nat) (t1 t2 : String) (i1 i2 : Option String)
    (x : Wish) : Wish :=
  if x.participant_id == uid then
    { x with wish1 := t1, wish1_img := i1, wish2 := t2, wish2_img := i2 }
  else x

/-- `POST /dashboard` (app.py lines 271-348): fetch the caller's wish row,
start each image from the stored reference, process the two uploads, then
update the row in place if it exists, else insert a new one. -/
def dashboard_post (s : AppState) (sid : Option Nat) (form : DashForm)
    (cfg : Bool) (env1 env2 : UploadAttempt) :
    Except String (AppState × DashOutcome) :=
  match get_logged_user s sid with
  | none => .ok (s, .loginRedirect)
  | some user =>
    let my_wishes := s.wishes.find? (fun w => w.participant_id == user.id)
    let wish1 := pyStrip form.wish1
    let wish2 := pyStrip form.wish2
    let prior1 : Option String := match my_wishes with
      | some w => w.wish1_img
      | none => none
    let prior2 : Option String := match my_wishes with
      | some w => w.wish2_img
      | none => none
    match processWishImage prior1 form.file1 cfg env1 1 user.id with
    | .error e => .error e
    | .ok img1 =>
      match processWishImage prior2 form.file2 cfg env2 2 user.id with
      | .error e => .error e
      | .ok img2 =>
        match my_wishes with
        | some _ =>
          .ok ({ s with
                 wishes := s.wishes.map (updateWishRow user.id wish1 wish2 img1 img2) },
               .saved)
        | none =>
          .ok ({ s with
                 wishes := s.wishes ++ [⟨s.wSeq, user.id, wish1, img1, wish2, img2⟩],
                 wSeq := s.wSeq + 1 }, .saved)

/-- The table rows a dashboard result holds (empty on a raised request). -/
def wishesOf (r : Except String (AppState × DashOutcome)) : List Wish :=
  match r with
  | .ok (s, _) => s.wishes
  | .error _ => []

/-- Whether a dashboard POST completed with the saved-and-redirect outcome. -/
def isSaved (r : Except String (AppState × DashOutcome)) : Bool :=
  match r with
  | .ok (_, .saved) => true
  | _ => false

/-- The view of a wish row the frame claims talk about: its owner and the
two stored image references. -/
def imgView (w : Wish) : Nat × Option String × Option String :=
  (w.participant_id, w.wish1_img, w.wish2_img)

/-- The local filename `f"w{slot}_{user_id}_{filename}"` used by the disk
fallback (app.py lines 310 and 322). -/
def newLocalWishName (slot uid : Nat) (fname : String) : String :=
  "w" ++ toString slot ++ "_" ++ toString uid ++ "_" ++ secure_filename fname

/-- The reference a successful upload of a valid file produces: the remote
secure url when Cloudinary answers, else the local fallback name. -/
def producedRef (cfg : Bool) (env : UploadAttempt) (slot uid : Nat)
    (fname : String) : String :=
  match upload_to_cloudinary cfg env.remote with
  | some url => url
  | none => newLocalWishName slot uid fname

/-! ## Food registry (app.py lines 446-580) -/

/-- The form and file of a `POST /comidas` request. -/
structure FoodForm where
  person_name : String
  title : String
  description : String
  file : Option FileUpload
deriving DecidableEq, Repr

/-- The image handling of the foods routes (app.py lines 461-473): same
shape as the wish slots, with the local name `f"food_{person_name}_{...}"`,
and the same unprotected `file.save`. -/
def processFoodImage (file : Option FileUpload) (cfg : Bool)
    (env : UploadAttempt) (person_name : String) : Except String (Option String) :=
  match file with
  | none => .ok none
  | some f =>
    if f.filename != "" && allowed_file f.filename then
      match upload_to_cloudinary cfg env.remote with
      | some url => .ok (some url)
      | none =>
        if env.localOk then
          .ok (some ("food_" ++ person_name ++ "_" ++ secure_filename f.filename))
        else
          .error "OSError: file.save failed"
    else
      .ok none

/-- Whether the file handling of a request cannot raise: no usable file,
or the remote upload answers, or the local save succeeds. -/
def uploadSafe (file : Option FileUpload) (cfg : Bool) (env : UploadAttempt) : Bool :=
  match file with
  | none => true
  | some f =>
    !(f.filename != "" && allowed_file f.filename) ||
      (upload_to_cloudinary cfg env.remote).isSome || env.localOk

/-- The person-name resolution of `POST /comidas` (app.py lines 454-459):
the stripped form value, defaulting to the logged-in user's name when a
session resolves and to `"Invitado"` otherwise. -/
def resolvePersonName (s : AppState) (sid : Option Nat) (pn : String) : String :=
  if pyStrip pn == "" then
    match get_logged_user s sid with
    | some u => u.name
    | none => "Invitado"
  else pyStrip pn

/-- `POST /comidas` (app.py lines 446-489): no authentication check; the
person name defaults to the logged-in user's name, else `"Invitado"`; the
image is processed BEFORE the title validation; a nonempty trimmed title
inserts a row and flashes success, an empty one flashes the validation
error and inserts nothing. -/
def foods_post (s : AppState) (sid : Option Nat) (form : FoodForm)
    (cfg : Bool) (env : UploadAttempt) :
    Except String (AppState × List (String × String)) :=
  let person_name := resolvePersonName s sid form.person_name
  match processFoodImage form.file cfg env person_name with
  | .error e => .error e
  | .ok img_filename =>
    if pyStrip form.title != "" then
      .ok ({ s with
             foods := s.foods ++
               [⟨s.fSeq, person_name, pyStrip form.title, pyStrip form.description, img_filename⟩],
             fSeq := s.fSeq + 1 },
           [("Comida registrada para la cena de Navidad.", "success")])
    else
      .ok (s, [("El título de la comida es obligatorio.", "danger")])

/-- The flash messages a foods result carries (none on a raised request). -/
def flashesOf (r : Except String (AppState × List (String × String))) :
    List (String × String) :=
  match r with
  | .ok (_, fl) => fl
  | .error _ => []

/-! ## Gift reveal `GET /gift` (app.py lines 402-440) -/

/-- `GET /gift` for an authenticated caller: the handler only issues
SELECTs, so the store comes back as found; Python falsiness of
`if user["gives_to"]:` treats 0 like an absent assignment.  Returns the
(unchanged) store, the receiver row, and the receiver's wish row. -/
def gift (s : AppState) (user : Participant) :
    AppState × Option Participant × Option Wish :=
  match user.givesTo with
  | none => (s, none, none)
  | some rid =>
    if rid == 0 then (s, none, none)
    else
      match s.participants.find? (fun p => p.id == rid) with
      | none => (s, none, none)
      | some receiver =>
        (s, some receiver, s.wishes.find? (fun w => w.participant_id == receiver.id))

/-! ## Food deletion `POST /comidas/eliminar/<id>` (app.py lines 555-580) -/

/-- What a `delete_food` request produces: the new store, the local files
it removed from the upload folder, the flash, and the redirect target. -/
structure DeleteFoodResult where
  state : AppState
  removedFiles : List String
  flash : String × String
  redirectTo : String
deriving DecidableEq, Repr

/-- `delete_food` (app.py lines 555-580): look the row up; if it exists and
holds a non-cloud image name that exists on disk (`fs` is the set of local
upload files), best-effort remove it; then `DELETE FROM foods WHERE id`,
flash success and redirect — with no not-found check anywhere. -/
def delete_food (s : AppState) (fs : List String) (fid : Nat) : DeleteFoodResult :=
  let row := s.foods.find? (fun f => f.id == fid)
  let removed : List String :=
    match row with
    | some r =>
      match r.image_filename with
      | some img =>
        if img != "" && !is_cloud_url img && fs.contains img then [img] else []
      | none => []
    | none => []
  { state := { s with foods := s.foods.filter (fun f => !(f.id == fid)) },
    removedFiles := removed,
    flash := ("Platillo eliminado.", "info"),
    redirectTo := "foods" }

/-! ## Lemmas about the seed routine

The goal is `init_db_restart`: once `init_db` has run, any further run
leaves the `participants` table (ids, names, codes and `gives_to`) exactly
as it was.  The inserts are no-ops because every seeded name is present,
and the assignment loop rewrites each `gives_to` with the value it already
has, because name-to-id resolution is untouched by `gives_to` updates. -/

theorem find?_append_eq {α : Type} (l₁ l₂ : List α) (p : α → Bool) :
    (l₁ ++ l₂).find? p =
      match l₁.find? p with
      | some a => some a
      | none => l₂.find? p := by
  induction l₁ with
  | nil => simp
  | cons a t ih =>
    by_cases h : p a
    · simp [List.find?_cons_of_pos, h]
    · simp only [List.cons_append, List.find?_cons_of_neg _ h, ih]

theorem lookupId_cons (p : Participant) (t : List Participant) (n : String) :
    lookupId (p :: t) n = if p.name == n then some p.id else lookupId t n := by
  by_cases h : p.name == n
  · simp [lookupId, List.find?_cons_of_pos, h]
  · simp [lookupId, List.find?_cons_of_neg _ h, h]

theorem lookupId_append (ps qs : List Participant) (n : String) :
    lookupId (ps ++ qs) n =
      match lookupId ps n with
      | some i => some i
      | none => lookupId qs n := by
  unfold lookupId
  rw [find?_append_eq]
  cases ps.find? (fun p => p.name == n) <;> simp

theorem setGivesTo_cons (p : Participant) (t : List Participant) (g : String) (i : Nat) :
    setGivesTo (p :: t) g i =
      (if p.name == g then { p with givesTo := some i } else p) :: setGivesTo t g i := by
  simp [setGivesTo]

theorem lookupId_setGivesTo (ps : List Participant) (g : String) (i : Nat) (n : String) :
    lookupId (setGivesTo ps g i) n = lookupId ps n := by
  induction ps with
  | nil => rfl
  | cons p t ih =>
    rw [setGivesTo_cons]
    by_cases hg : p.name == g
    · rw [if_pos hg, lookupId_cons, lookupId_cons]
      by_cases hn : p.name == n
      · simp [hn]
      · simp [hn, ih]
    · rw [if_neg hg, lookupId_cons, lookupId_cons]
      by_cases hn : p.name == n
      · simp [hn]
      · simp [hn, ih]

theorem lookupId_applyAssignment (ps : List Participant) (pr : String × String)
    (n : String) :
    lookupId (applyAssignment ps pr) n = lookupId ps n := by
  unfold applyAssignment
  cases lookupId ps pr.2 with
  | none => rfl
  | some i => exact lookupId_setGivesTo ps pr.1 i n

theorem lookupId_assignFold (l : List (String × String)) (ps : List Participant)
    (n : String) :
    lookupId (l.foldl applyAssignment ps) n = lookupId ps n := by
  induction l generalizing ps with
  | nil => rfl
  | cons q t ih => rw [List.foldl_cons, ih, lookupId_applyAssignment]

/-- All rows with a given name carry the given `gives_to` target. -/
def rowsGive (ps : List Participant) (g : String) (i : Nat) : Prop :=
  ∀ p ∈ ps, p.name = g → p.givesTo = some i

theorem setGivesTo_rowsGive (ps : List Participant) (g : String) (i : Nat) :
    rowsGive (setGivesTo ps g i) g i := by
  intro q hq hname
  rcases List.mem_map.mp hq with ⟨p, _, rfl⟩
  by_cases h : p.name == g
  · simp [h]
  · rw [if_neg h] at hname ⊢
    exact absurd (by simp [hname]) h

theorem rowsGive_setGivesTo_ne (ps : List Participant) {g g2 : String}
    (i i2 : Nat) (hne : g ≠ g2) (h : rowsGive ps g i) :
    rowsGive (setGivesTo ps g2 i2) g i := by
  intro q hq hname
  rcases List.mem_map.mp hq with ⟨p, hp, rfl⟩
  by_cases hc : p.name == g2
  · rw [if_pos hc] at hname
    have hg2 : p.name = g2 := by simpa using hc
    exact absurd (hname.symm.trans hg2) hne
  · rw [if_neg hc] at hname ⊢
    exact h p hp hname

theorem setGivesTo_self (ps : List Participant) (g : String) (i : Nat)
    (h : rowsGive ps g i) : setGivesTo ps g i = ps := by
  induction ps with
  | nil => rfl
  | cons p t ih =>
    rw [setGivesTo_cons]
    have ht : setGivesTo t g i = t :=
      ih (fun q hq => h q (List.mem_cons_of_mem p hq))
    by_cases hc : p.name == g
    · have hv : p.givesTo = some i :=
        h p (List.mem_cons_self p t) (by simpa using hc)
      rw [if_pos hc, ht]
      cases p with
      | mk pid pname pcode pgives =>
        simp only at hv
        simp [hv]
    · rw [if_neg hc, ht]

theorem rowsGive_applyAssignment_ne (ps : List Participant)
    (pr : String × String) {g : String} (i : Nat) (hne : g ≠ pr.1)
    (h : rowsGive ps g i) : rowsGive (applyAssignment ps pr) g i := by
  unfold applyAssignment
  cases lookupId ps pr.2 with
  | none => exact h
  | some j => exact rowsGive_setGivesTo_ne ps i j hne h

theorem rowsGive_assignFold_ne (l : List (String × String))
    (ps : List Participant) {g : String} (i : Nat)
    (hg : g ∉ l.map Prod.fst) (h : rowsGive ps g i) :
    rowsGive (l.foldl applyAssignment ps) g i := by
  induction l generalizing ps with
  | nil => exact h
  | cons q t ih =>
    rw [List.map_cons] at hg
    rw [List.foldl_cons]
    exact ih (applyAssignment ps q)
      (fun hmem => hg (List.mem_cons_of_mem _ hmem))
      (rowsGive_applyAssignment_ne ps q i
        (fun he => hg (he ▸ List.mem_cons_self _ _)) h)

theorem assignFold_good (l : List (String × String)) (ps : List Participant)
    (hnd : (l.map Prod.fst).Nodup) :
    ∀ pr ∈ l, ∀ i, lookupId (l.foldl applyAssignment ps) pr.2 = some i →
      rowsGive (l.foldl applyAssignment ps) pr.1 i := by
  induction l generalizing ps with
  | nil => intro pr hpr; exact absurd hpr (List.not_mem_nil pr)
  | cons q t ih =>
    rw [List.map_cons, List.nodup_cons] at hnd
    intro pr hpr i hlook
    rw [List.foldl_cons] at hlook ⊢
    rcases List.mem_cons.mp hpr with rfl | hpr2
    · have hps : lookupId ps pr.2 = some i := by
        rw [lookupId_assignFold, lookupId_applyAssignment] at hlook
        exact hlook
      have hstep : applyAssignment ps pr = setGivesTo ps pr.1 i := by
        unfold applyAssignment
        rw [hps]
      rw [hstep]
      exact rowsGive_assignFold_ne t _ i hnd.1 (setGivesTo_rowsGive ps pr.1 i)
    · exact ih (applyAssignment ps q) hnd.2 pr hpr2 i hlook

theorem assignFold_fixed (l : List (String × String)) (ps : List Participant)
    (h : ∀ pr ∈ l, ∀ i, lookupId ps pr.2 = some i → rowsGive ps pr.1 i) :
    l.foldl applyAssignment ps = ps := by
  induction l with
  | nil => rfl
  | cons q t ih =>
    have hstep : applyAssignment ps q = ps := by
      unfold applyAssignment
      cases hc : lookupId ps q.2 with
      | none => rfl
      | some i => exact setGivesTo_self ps q.1 i (h q (List.mem_cons_self q t) i hc)
    rw [List.foldl_cons, hstep]
    exact ih (fun pr hpr => h pr (List.mem_cons_of_mem q hpr))

theorem any_name_eq_lookupId_isSome (ps : List Participant) (n : String) :
    ps.any (fun p => p.name == n) = (lookupId ps n).isSome := by
  induction ps with
  | nil => rfl
  | cons p t ih =>
    by_cases h : p.name == n
    · simp [lookupId_cons, h]
    · simp [lookupId_cons, h, ih]

theorem insertParticipant_of_present (s : AppState) (nc : String × String)
    (h : (lookupId s.participants nc.1).isSome = true) :
    (insertParticipant s nc).participants = s.participants := by
  unfold insertParticipant
  rw [if_pos (by rw [any_name_eq_lookupId_isSome]; exact h)]

theorem lookupId_insert_mono (s : AppState) (nc : String × String) (n : String)
    (h : (lookupId s.participants n).isSome = true) :
    (lookupId (insertParticipant s nc).participants n).isSome = true := by
  unfold insertParticipant
  by_cases hc : s.participants.any (fun p => p.name == nc.1)
  · rw [if_pos hc]
    exact h
  · rw [if_neg hc]
    simp only [lookupId_append]
    rcases Option.isSome_iff_exists.mp h with ⟨i, hi⟩
    rw [hi]
    rfl

theorem insertParticipant_present_self (s : AppState) (nc : String × String) :
    (lookupId (insertParticipant s nc).participants nc.1).isSome = true := by
  unfold insertParticipant
  by_cases hc : s.participants.any (fun p => p.name == nc.1)
  · rw [if_pos hc]
    rw [← any_name_eq_lookupId_isSome]
    exact hc
  · rw [if_neg hc]
    simp only [lookupId_append]
    cases hl : lookupId s.participants nc.1 with
    | some i => rfl
    | none => simp [lookupId_cons]

theorem lookupId_insertFold_mono (l : List (String × String)) (s : AppState)
    (n : String) (h : (lookupId s.participants n).isSome = true) :
    (lookupId ((l.foldl insertParticipant s).participants) n).isSome = true := by
  induction l generalizing s with
  | nil => exact h
  | cons a t ih =>
    rw [List.foldl_cons]
    exact ih (insertParticipant s a) (lookupId_insert_mono s a n h)

theorem insertFold_present (l : List (String × String)) (s : AppState) :
    ∀ nc ∈ l, (lookupId ((l.foldl insertParticipant s).participants) nc.1).isSome = true := by
  induction l generalizing s with
  | nil => intro nc h; exact absurd h (List.not_mem_nil nc)
  | cons a t ih =>
    intro nc hnc
    rw [List.foldl_cons]
    rcases List.mem_cons.mp hnc with rfl | h2
    · exact lookupId_insertFold_mono t _ nc.1 (insertParticipant_present_self s nc)
    · exact ih _ nc h2

theorem insertFold_no_new (l : List (String × String)) (s : AppState)
    (h : ∀ nc ∈ l, (lookupId s.participants nc.1).isSome = true) :
    (l.foldl insertParticipant s).participants = s.participants := by
  induction l generalizing s with
  | nil => rfl
  | cons a t ih =>
    rw [List.foldl_cons]
    have hstep := insertParticipant_of_present s a (h a (List.mem_cons_self a t))
    rw [ih (insertParticipant s a) (fun nc hnc => by
      rw [hstep]
      exact h nc (List.mem_cons_of_mem a hnc))]
    exact hstep

theorem init_db_participants (s : AppState) :
    (init_db s).participants = assignAll (insertSeed s).participants := by
  simp only [init_db]

theorem insertSeed_eq (s : AppState) :
    insertSeed s = seedParticipants.foldl insertParticipant s := rfl

theorem assignAll_eq (ps : List Participant) :
    assignAll ps = asignaciones.foldl applyAssignment ps := rfl

theorem seed_names_present (s : AppState) :
    ∀ nc ∈ seedParticipants, (lookupId (init_db s).participants nc.1).isSome = true := by
  intro nc h
  rw [init_db_participants, assignAll_eq, lookupId_assignFold, insertSeed_eq]
  exact insertFold_present seedParticipants s nc h

/-- The master lemma: on any store whose `participants` table is one that
`init_db` has produced, running `init_db` again leaves that table
unchanged. -/
theorem init_db_restart (s t : AppState)
    (h : t.participants = (init_db s).participants) :
    (init_db t).participants = (init_db s).participants := by
  have hpres : ∀ nc ∈ seedParticipants, (lookupId t.participants nc.1).isSome = true := by
    rw [h]
    exact seed_names_present s
  rw [init_db_participants, assignAll_eq, insertSeed_eq,
    insertFold_no_new seedParticipants t hpres, h]
  apply assignFold_fixed
  intro pr hpr i hlook
  have hnd : (asignaciones.map Prod.fst).Nodup := by decide
  have hgood := assignFold_good asignaciones ((insertSeed s).participants) hnd pr hpr i
  rw [init_db_participants, assignAll_eq] at hlook ⊢
  exact hgood hlook

/-- Idempotence of the seed on the `participants` table. -/
theorem init_db_idem_participants (s : AppState) :
    (init_db (init_db s)).participants = (init_db s).participants :=
  init_db_restart s (init_db s) rfl

/-- Any number of restarts after the first leaves the roster unchanged. -/
theorem seedN_participants (n : Nat) :
    (seedN (n + 1)).participants = seededState.participants := by
  induction n with
  | zero => rfl
  | succ k ih => exact init_db_restart emptyState (seedN (k + 1)) ih

/-! ## Claim theorems C1 and C7 -/

/-- C1: after `init_db` runs, the twelve seeded participants are exactly the
fixed roster, every one of them has exactly one `gives_to` target, every one
is the target of exactly one participant, and re-running the seed on any
number of restarts leaves every participant's row — in particular its
`gives_to` value — unchanged. -/
theorem C1_gives_to_is_fixed_permutation :
    seededState.participants.map Participant.name = seedParticipants.map Prod.fst
  ∧ (seededState.participants.all (fun p => p.givesTo.isSome)) = true
  ∧ (seededState.participants.all (fun p => p.givesTo != some p.id)) = true
  ∧ (seededState.participants.all (fun p =>
      seededState.participants.countP (fun q => q.givesTo == some p.id) == 1)) = true
  ∧ ∀ n : Nat, (seedN (n + 1)).participants = seededState.participants :=
  ⟨by decide, by decide, by decide, by decide, seedN_participants⟩

/-- C7: the seed routine is idempotent — running `init_db` on any store it
has already acted on rewrites the `participants` table to exactly the same
rows (same ids, names, codes and `gives_to` values), and a participant
insert is a no-op on the table whenever the name already exists. -/
theorem C7_init_db_idempotent :
    (∀ s : AppState, (init_db (init_db s)).participants = (init_db s).participants)
  ∧ (∀ (s : AppState) (n c : String),
      s.participants.any (fun p => p.name == n) = true →
      (insertParticipant s (n, c)).participants = s.participants) :=
  ⟨init_db_idem_participants, fun s n c h => by
    unfold insertParticipant
    rw [if_pos h]⟩

/-- Witness for C7 at a concrete input: re-inserting the already-seeded
name `"Miguel"` leaves the seeded roster unchanged. -/
theorem C7_init_db_idempotent_witness :
    (insertParticipant seededState ("Miguel", "M123")).participants =
      seededState.participants :=
  C7_init_db_idempotent.2 seededState "Miguel" "M123" (by decide)

/-! ## Claim C2: login -/

theorem login_eq_some (s : AppState) (pid : Nat) (c : String)
    (h : ∃ p ∈ s.participants, p.id = pid ∧ p.code = pyStrip c) :
    login s pid c = some pid := by
  unfold login
  cases hf : s.participants.find? (fun p => p.id == pid && p.code == pyStrip c) with
  | none =>
    rcases h with ⟨p, hp, hid, hcode⟩
    have := List.find?_eq_none.mp hf p hp
    exact absurd (by simp [hid, hcode]) this
  | some u =>
    have hu := List.find?_some hf
    simp only [Bool.and_eq_true, beq_iff_eq] at hu
    simp [hu.1]

theorem login_eq_none (s : AppState) (pid : Nat) (c : String)
    (h : ∀ p ∈ s.participants, ¬(p.id = pid ∧ p.code = pyStrip c)) :
    login s pid c = none := by
  unfold login
  rw [List.find?_eq_none.mpr]
  · rfl
  · intro p hp
    simp only [Bool.and_eq_true, beq_iff_eq]
    exact fun hc => h p hp hc

/-- C2 counterexample: the pair `(1, " M123")` was never inserted by the
seed (participant 1 stores the code `"M123"`), yet the login POST succeeds
and stores the identifier in the session, because the handler strips the
submitted code before the exact-match comparison. -/
theorem C2_counterexample_whitespace_code :
    login seededState 1 " M123" = some 1
  ∧ (∀ p ∈ seededState.participants, ¬(p.id = 1 ∧ p.code = " M123")) :=
  ⟨by decide, by decide⟩

/-- C2 (amended): against the seeded store, a login POST succeeds — storing
the participant's identifier in the session — exactly when some stored row
has the submitted id and a code equal to the submitted code after stripping
surrounding whitespace; for every other pair it fails and stores nothing.
The comparison is an exact match of the stripped submitted code against the
stored plaintext code. -/
theorem C2_login_exact_match_on_stripped_code (pid : Nat) (c : String) :
    ((∃ p ∈ seededState.participants, p.id = pid ∧ p.code = pyStrip c) →
      login seededState pid c = some pid)
  ∧ ((∀ p ∈ seededState.participants, ¬(p.id = pid ∧ p.code = pyStrip c)) →
      login seededState pid c = none) :=
  ⟨login_eq_some seededState pid c, login_eq_none seededState pid c⟩

/-- Witness for C2 at a concrete input: the seeded pair `(1, "M123")`
(participant `"Miguel"`) logs in successfully, and a wrong code is
rejected with no session stored. -/
theorem C2_login_witness :
    login seededState 1 "M123" = some 1 ∧ login seededState 1 "X999" = none :=
  ⟨(C2_login_exact_match_on_stripped_code 1 "M123").1 (by decide),
   (C2_login_exact_match_on_stripped_code 1 "X999").2 (by decide)⟩

/-! ## Claims C3 and C5: the dashboard upsert and its image frame -/

/-- With at most one row matching, the row `find?` returns is the only
match (the `UNIQUE` constraint on `wishes.participant_id` gives the bound). -/
theorem count_le_one_find?_unique {α : Type} (l : List α) (p : α → Bool) (a : α)
    (hc : l.countP p ≤ 1) (hf : l.find? p = some a) :
    ∀ b ∈ l, p b = true → b = a := by
  induction l with
  | nil => intro b hb; exact absurd hb (List.not_mem_nil b)
  | cons x t ih =>
    intro b hb hpb
    by_cases hx : p x
    · have hax : x = a := by
        rw [List.find?_cons_of_pos _ hx] at hf
        exact Option.some_inj.mp hf
      rw [List.countP_cons_of_pos p t hx] at hc
      have ht0 : t.countP p = 0 := by omega
      rcases List.mem_cons.mp hb with rfl | hbt
      · exact hax
      · exact absurd hpb (by simpa using List.countP_eq_zero.mp ht0 b hbt)
    · rw [List.find?_cons_of_neg _ hx] at hf
      rw [List.countP_cons_of_neg p t hx] at hc
      rcases List.mem_cons.mp hb with rfl | hbt
      · exact absurd hpb (by simpa using hx)
      · exact ih hc hf b hbt hpb

/-- Any projection that does not separate the updated matching row from the
found row is preserved by the in-place update. -/
theorem mapUpdate_proj_eq {β : Type} (l : List Wish) (uid : Nat) (w : Wish)
    (hf : l.find? (fun x => x.participant_id == uid) = some w)
    (hc : l.countP (fun x => x.participant_id == uid) ≤ 1)
    (t1 t2 : String) (i1 i2 : Option String) (g : Wish → β)
    (hg : g { w with wish1 := t1, wish1_img := i1, wish2 := t2, wish2_img := i2 } = g w) :
    (l.map (updateWishRow uid t1 t2 i1 i2)).map g = l.map g := by
  rw [List.map_map]
  apply List.map_congr_left
  intro x hx
  show g (updateWishRow uid t1 t2 i1 i2 x) = g x
  unfold updateWishRow
  by_cases hm : x.participant_id == uid
  · have hxw : x = w :=
      count_le_one_find?_unique l (fun x => x.participant_id == uid) w hc hf x hx hm
    rw [if_pos hm, hxw, hg]
  · rw [if_neg hm]

/-- After the in-place update, every row owned by the caller carries
exactly the two image references that were written. -/
theorem mapUpdate_matching (l : List Wish) (uid : Nat) (t1 t2 : String)
    (i1 i2 : Option String) :
    ∀ x ∈ l.map (updateWishRow uid t1 t2 i1 i2), x.participant_id = uid →
      x.wish1_img = i1 ∧ x.wish2_img = i2 := by
  intro x hx hmatch
  rcases List.mem_map.mp hx with ⟨v, _, rfl⟩
  unfold updateWishRow at hmatch ⊢
  by_cases hm : v.participant_id == uid
  · rw [if_pos hm]
    exact ⟨rfl, rfl⟩
  · rw [if_neg hm] at hmatch
    exact absurd (by simp [hmatch]) hm

/-- Dashboard reduction, update case with no uploaded files: both image
slots keep the stored references of the found row. -/
theorem dashboard_update_nofiles (s : AppState) (sid : Option Nat)
    (form : DashForm) (cfg : Bool) (env1 env2 : UploadAttempt)
    (user : Participant) (w : Wish)
    (hu : get_logged_user s sid = some user)
    (hw : s.wishes.find? (fun x => x.participant_id == user.id) = some w)
    (h1 : form.file1 = none) (h2 : form.file2 = none) :
    dashboard_post s sid form cfg env1 env2 =
      .ok ({ s with
             wishes := s.wishes.map
                         (updateWishRow user.id (pyStrip form.wish1)
                           (pyStrip form.wish2) w.wish1_img w.wish2_img) },
           .saved) := by
  simp only [dashboard_post, hu, hw, h1, h2, processWishImage]

/-- Dashboard reduction, update case with a valid slot-1 file and an upload
that completes: slot 1 gets the produced reference, slot 2 keeps the stored
one. -/
theorem dashboard_update_file1 (s : AppState) (sid : Option Nat)
    (form : DashForm) (cfg : Bool) (env1 env2 : UploadAttempt)
    (user : Participant) (w : Wish) (f : FileUpload)
    (hu : get_logged_user s sid = some user)
    (hw : s.wishes.find? (fun x => x.participant_id == user.id) = some w)
    (hf1 : form.file1 = some f) (h2 : form.file2 = none)
    (hcond : (f.filename != "" && allowed_file f.filename) = true)
    (hup : ((upload_to_cloudinary cfg env1.remote).isSome || env1.localOk) = true) :
    dashboard_post s sid form cfg env1 env2 =
      .ok ({ s with
             wishes := s.wishes.map
                         (updateWishRow user.id (pyStrip form.wish1)
                           (pyStrip form.wish2)
                           (some (producedRef cfg env1 1 user.id f.filename))
                           w.wish2_img) },
           .saved) := by
  cases hrem : upload_to_cloudinary cfg env1.remote with
  | some url =>
    simp only [dashboard_post, hu, hw, hf1, h2, processWishImage, hcond, if_true,
      hrem, producedRef]
  | none =>
    have hl : env1.localOk = true := by
      rw [hrem] at hup
      simpa using hup
    simp only [dashboard_post, hu, hw, hf1, h2, processWishImage, hcond, if_true,
      hrem, hl, producedRef, newLocalWishName]

/-- Dashboard reduction, update case with a valid slot-2 file, symmetric to
`dashboard_update_file1`. -/
theorem dashboard_update_file2 (s : AppState) (sid : Option Nat)
    (form : DashForm) (cfg : Bool) (env1 env2 : UploadAttempt)
    (user : Participant) (w : Wish) (f : FileUpload)
    (hu : get_logged_user s sid = some user)
    (hw : s.wishes.find? (fun x => x.participant_id == user.id) = some w)
    (hf2 : form.file2 = some f) (h1 : form.file1 = none)
    (hcond : (f.filename != "" && allowed_file f.filename) = true)
    (hup : ((upload_to_cloudinary cfg env2.remote).isSome || env2.localOk) = true) :
    dashboard_post s sid form cfg env1 env2 =
      .ok ({ s with
             wishes := s.wishes.map
                         (updateWishRow user.id (pyStrip form.wish1)
                           (pyStrip form.wish2) w.wish1_img
                           (some (producedRef cfg env2 2 user.id f.filename))) },
           .saved) := by
  cases hrem : upload_to_cloudinary cfg env2.remote with
  | some url =>
    simp only [dashboard_post, hu, hw, hf2, h1, processWishImage, hcond, if_true,
      hrem, producedRef]
  | none =>
    have hl : env2.localOk = true := by
      rw [hrem] at hup
      simpa using hup
    simp only [dashboard_post, hu, hw, hf2, h1, processWishImage, hcond, if_true,
      hrem, hl, producedRef, newLocalWishName]

/-- Dashboard reduction, insert case with no uploaded files: a fresh row
with empty image references is appended. -/
theorem dashboard_insert_nofiles (s : AppState) (sid : Option Nat)
    (form : DashForm) (cfg : Bool) (env1 env2 : UploadAttempt)
    (user : Participant)
    (hu : get_logged_user s sid = some user)
    (hw : s.wishes.find? (fun x => x.participant_id == user.id) = none)
    (h1 : form.file1 = none) (h2 : form.file2 = none) :
    dashboard_post s sid form cfg env1 env2 =
      .ok ({ s with
             wishes := s.wishes ++
               [⟨s.wSeq, user.id, pyStrip form.wish1, none, pyStrip form.wish2, none⟩],
             wSeq := s.wSeq + 1 },
           .saved) := by
  simp only [dashboard_post, hu, hw, h1, h2, processWishImage]

/-- Dashboard reduction, update case with a rejected slot-1 file and an
arbitrary slot-2 part: slot 1 keeps the stored reference and the request
reduces to whatever the slot-2 processing yields (raising included). -/
theorem dashboard_reject1_update (s : AppState) (sid : Option Nat)
    (form : DashForm) (cfg : Bool) (env1 env2 : UploadAttempt)
    (user : Participant) (w : Wish) (f : FileUpload)
    (hu : get_logged_user s sid = some user)
    (hw : s.wishes.find? (fun x => x.participant_id == user.id) = some w)
    (hf1 : form.file1 = some f)
    (hcond : allowed_file f.filename = false) :
    dashboard_post s sid form cfg env1 env2 =
      match processWishImage w.wish2_img form.file2 cfg env2 2 user.id with
      | .error e => .error e
      | .ok v2 =>
        .ok ({ s with
               wishes := s.wishes.map
                           (updateWishRow user.id (pyStrip form.wish1)
                             (pyStrip form.wish2) w.wish1_img v2) },
             .saved) := by
  simp only [dashboard_post, hu, hw, hf1, processWishImage, hcond,
    Bool.and_false, Bool.false_eq_true, if_false]

/-- Dashboard reduction, insert case with a rejected slot-1 file and an
arbitrary slot-2 part: a completing request appends a row whose slot-1
reference is empty. -/
theorem dashboard_reject1_insert (s : AppState) (sid : Option Nat)
    (form : DashForm) (cfg : Bool) (env1 env2 : UploadAttempt)
    (user : Participant) (f : FileUpload)
    (hu : get_logged_user s sid = some user)
    (hw : s.wishes.find? (fun x => x.participant_id == user.id) = none)
    (hf1 : form.file1 = some f)
    (hcond : allowed_file f.filename = false) :
    dashboard_post s sid form cfg env1 env2 =
      match processWishImage none form.file2 cfg env2 2 user.id with
      | .error e => .error e
      | .ok v2 =>
        .ok ({ s with
               wishes := s.wishes ++
                 [⟨s.wSeq, user.id, pyStrip form.wish1, none, pyStrip form.wish2, v2⟩],
               wSeq := s.wSeq + 1 },
             .saved) := by
  simp only [dashboard_post, hu, hw, hf1, processWishImage, hcond,
    Bool.and_false, Bool.false_eq_true, if_false]

/-- Dashboard reduction, update case with a rejected slot-2 file and an
arbitrary slot-1 part, symmetric to `dashboard_reject1_update`. -/
theorem dashboard_reject2_update (s : AppState) (sid : Option Nat)
    (form : DashForm) (cfg : Bool) (env1 env2 : UploadAttempt)
    (user : Participant) (w : Wish) (f : FileUpload)
    (hu : get_logged_user s sid = some user)
    (hw : s.wishes.find? (fun x => x.participant_id == user.id) = some w)
    (hf2 : form.file2 = some f)
    (hcond : allowed_file f.filename = false) :
    dashboard_post s sid form cfg env1 env2 =
      match processWishImage w.wish1_img form.file1 cfg env1 1 user.id with
      | .error e => .error e
      | .ok v1 =>
        .ok ({ s with
               wishes := s.wishes.map
                           (updateWishRow user.id (pyStrip form.wish1)
                             (pyStrip form.wish2) v1 w.wish2_img) },
             .saved) := by
  simp only [dashboard_post, hu, hw, hf2, processWishImage, hcond,
    Bool.and_false, Bool.false_eq_true, if_false]

/-- Dashboard reduction, insert case with a rejected slot-2 file and an
arbitrary slot-1 part: a completing request appends a row whose slot-2
reference is empty. -/
theorem dashboard_reject2_insert (s : AppState) (sid : Option Nat)
    (form : DashForm) (cfg : Bool) (env1 env2 : UploadAttempt)
    (user : Participant) (f : FileUpload)
    (hu : get_logged_user s sid = some user)
    (hw : s.wishes.find? (fun x => x.participant_id == user.id) = none)
    (hf2 : form.file2 = some f)
    (hcond : allowed_file f.filename = false) :
    dashboard_post s sid form cfg env1 env2 =
      match processWishImage none form.file1 cfg env1 1 user.id with
      | .error e => .error e
      | .ok v1 =>
        .ok ({ s with
               wishes := s.wishes ++
                 [⟨s.wSeq, user.id, pyStrip form.wish1, v1, pyStrip form.wish2, none⟩],
               wSeq := s.wSeq + 1 },
             .saved) := by
  simp only [dashboard_post, hu, hw, hf2, processWishImage, hcond,
    Bool.and_false, Bool.false_eq_true, if_false]

/-- C3: for an authenticated dashboard save (the `UNIQUE` constraint on
`wishes.participant_id` bounds the matching rows by one): with an existing
row, a POST with no uploaded files keeps every row's owner and both stored
image references, and a POST with one new valid image (whose upload
completes) rewrites exactly that slot's reference to the produced one while
keeping the other slot's reference, always updating in place (same number
of rows); with no existing row, the save appends exactly one fresh row. -/
theorem C3_dashboard_upsert_image_frame (s : AppState) (sid : Option Nat)
    (form : DashForm) (cfg : Bool) (env1 env2 : UploadAttempt)
    (user : Participant)
    (hu : get_logged_user s sid = some user)
    (huniq : s.wishes.countP (fun x => x.participant_id == user.id) ≤ 1) :
    (∀ w, s.wishes.find? (fun x => x.participant_id == user.id) = some w →
      ((form.file1 = none → form.file2 = none →
        isSaved (dashboard_post s sid form cfg env1 env2) = true
        ∧ (wishesOf (dashboard_post s sid form cfg env1 env2)).map imgView =
            s.wishes.map imgView
        ∧ (wishesOf (dashboard_post s sid form cfg env1 env2)).length =
            s.wishes.length)
      ∧ (∀ f, form.file1 = some f → form.file2 = none →
          (f.filename != "" && allowed_file f.filename) = true →
          ((upload_to_cloudinary cfg env1.remote).isSome || env1.localOk) = true →
          isSaved (dashboard_post s sid form cfg env1 env2) = true
          ∧ (wishesOf (dashboard_post s sid form cfg env1 env2)).map
              (fun x => (x.participant_id, x.wish2_img)) =
              s.wishes.map (fun x => (x.participant_id, x.wish2_img))
          ∧ (∀ x ∈ wishesOf (dashboard_post s sid form cfg env1 env2),
              x.participant_id = user.id →
              x.wish1_img = some (producedRef cfg env1 1 user.id f.filename))
          ∧ (wishesOf (dashboard_post s sid form cfg env1 env2)).length =
              s.wishes.length)
      ∧ (∀ f, form.file2 = some f → form.file1 = none →
          (f.filename != "" && allowed_file f.filename) = true →
          ((upload_to_cloudinary cfg env2.remote).isSome || env2.localOk) = true →
          isSaved (dashboard_post s sid form cfg env1 env2) = true
          ∧ (wishesOf (dashboard_post s sid form cfg env1 env2)).map
              (fun x => (x.participant_id, x.wish1_img)) =
              s.wishes.map (fun x => (x.participant_id, x.wish1_img))
          ∧ (∀ x ∈ wishesOf (dashboard_post s sid form cfg env1 env2),
              x.participant_id = user.id →
              x.wish2_img = some (producedRef cfg env2 2 user.id f.filename))
          ∧ (wishesOf (dashboard_post s sid form cfg env1 env2)).length =
              s.wishes.length)))
    ∧ (s.wishes.find? (fun x => x.participant_id == user.id) = none →
        form.file1 = none → form.file2 = none →
        isSaved (dashboard_post s sid form cfg env1 env2) = true
        ∧ wishesOf (dashboard_post s sid form cfg env1 env2) =
            s.wishes ++
              [⟨s.wSeq, user.id, pyStrip form.wish1, none, pyStrip form.wish2, none⟩]) := by
  constructor
  · intro w hw
    refine ⟨fun h1 h2 => ?_, fun f hf1 h2 hcond hup => ?_, fun f hf2 h1 hcond hup => ?_⟩
    · rw [dashboard_update_nofiles s sid form cfg env1 env2 user w hu hw h1 h2]
      refine ⟨rfl, ?_, by simp [wishesOf]⟩
      exact mapUpdate_proj_eq s.wishes user.id w hw huniq _ _ _ _ imgView rfl
    · rw [dashboard_update_file1 s sid form cfg env1 env2 user w f hu hw hf1 h2 hcond hup]
      refine ⟨rfl, ?_, ?_, by simp [wishesOf]⟩
      · exact mapUpdate_proj_eq s.wishes user.id w hw huniq _ _ _ _
          (fun x => (x.participant_id, x.wish2_img)) rfl
      · intro x hx hmatch
        exact (mapUpdate_matching s.wishes user.id _ _ _ _ x hx hmatch).1
    · rw [dashboard_update_file2 s sid form cfg env1 env2 user w f hu hw hf2 h1 hcond hup]
      refine ⟨rfl, ?_, ?_, by simp [wishesOf]⟩
      · exact mapUpdate_proj_eq s.wishes user.id w hw huniq _ _ _ _
          (fun x => (x.participant_id, x.wish1_img)) rfl
      · intro x hx hmatch
        exact (mapUpdate_matching s.wishes user.id _ _ _ _ x hx hmatch).2
  · intro hw h1 h2
    rw [dashboard_insert_nofiles s sid form cfg env1 env2 user hu hw h1 h2]
    exact ⟨rfl, rfl⟩

/-- A store used by the concrete witnesses: the seeded roster, with one
wish row for participant 1 holding a stored local image in slot 1. -/
def demoState : AppState :=
  { seededState with
    wishes := [⟨1, 1, "libro", some "w1_1_a.png", "pluma", none⟩], wSeq := 2 }

/-- The seeded row of participant 1, `"Miguel"`. -/
def miguelRow : Participant := ⟨1, "Miguel", "M123", some 12⟩

/-- Witness for C3 at a concrete input: Miguel saves his dashboard with no
uploaded files; the request saves, the owner and both image references of
every stored row are unchanged, and no row is added. -/
theorem C3_dashboard_upsert_image_frame_witness :
    isSaved (dashboard_post demoState (some 1) ⟨"x", "y", none, none⟩ true
      ⟨none, true⟩ ⟨none, true⟩) = true
  ∧ (wishesOf (dashboard_post demoState (some 1) ⟨"x", "y", none, none⟩ true
      ⟨none, true⟩ ⟨none, true⟩)).map imgView = demoState.wishes.map imgView
  ∧ (wishesOf (dashboard_post demoState (some 1) ⟨"x", "y", none, none⟩ true
      ⟨none, true⟩ ⟨none, true⟩)).length = demoState.wishes.length :=
  ((C3_dashboard_upsert_image_frame demoState (some 1) ⟨"x", "y", none, none⟩
      true ⟨none, true⟩ ⟨none, true⟩ miguelRow (by decide) (by decide)).1
    ⟨1, 1, "libro", some "w1_1_a.png", "pluma", none⟩ (by decide)).1 rfl rfl

/-- A filename whose lower-cased extension is outside the allow-list is
rejected by `allowed_file`. -/
theorem allowed_file_false_of_ext (f : String)
    (h : strToLower (extLast f) ∉ ALLOWED_EXTENSIONS) :
    allowed_file f = false := by
  have hc : ALLOWED_EXTENSIONS.contains (strToLower (extLast f)) = false := by
    simpa using h
  simp only [allowed_file, hc, Bool.and_false]

/-- C5: for every authenticated dashboard save that uploads a file whose
lower-cased extension is not in the allow-list
`{png, jpg, jpeg, gif, webp, bmp}` — in either slot, with the other slot
holding anything (empty, a valid file, or another rejected one) — every
completing request leaves the stored image reference of that slot unchanged
on every row (update case), and when no row existed the freshly inserted
row carries no reference in that slot: the file is rejected and no new
image reference is produced for it.  (A request that does not complete
performs no database write at all — the upsert and commit sit after both
file blocks in the source.) -/
theorem C5_disallowed_extension_keeps_images (s : AppState) (sid : Option Nat)
    (form : DashForm) (cfg : Bool) (env1 env2 : UploadAttempt)
    (user : Participant) (f : FileUpload)
    (hu : get_logged_user s sid = some user)
    (huniq : s.wishes.countP (fun x => x.participant_id == user.id) ≤ 1)
    (hext : strToLower (extLast f.filename) ∉ ALLOWED_EXTENSIONS) :
    (form.file1 = some f →
      (∀ w, s.wishes.find? (fun x => x.participant_id == user.id) = some w →
        ∀ r, dashboard_post s sid form cfg env1 env2 = .ok r →
          r.1.wishes.map (fun x => (x.participant_id, x.wish1_img)) =
            s.wishes.map (fun x => (x.participant_id, x.wish1_img)))
      ∧ (s.wishes.find? (fun x => x.participant_id == user.id) = none →
          ∀ r, dashboard_post s sid form cfg env1 env2 = .ok r →
            (∀ x ∈ r.1.wishes, x.participant_id = user.id → x.wish1_img = none)
            ∧ r.1.wishes.length = s.wishes.length + 1))
  ∧ (form.file2 = some f →
      (∀ w, s.wishes.find? (fun x => x.participant_id == user.id) = some w →
        ∀ r, dashboard_post s sid form cfg env1 env2 = .ok r →
          r.1.wishes.map (fun x => (x.participant_id, x.wish2_img)) =
            s.wishes.map (fun x => (x.participant_id, x.wish2_img)))
      ∧ (s.wishes.find? (fun x => x.participant_id == user.id) = none →
          ∀ r, dashboard_post s sid form cfg env1 env2 = .ok r →
            (∀ x ∈ r.1.wishes, x.participant_id = user.id → x.wish2_img = none)
            ∧ r.1.wishes.length = s.wishes.length + 1)) := by
  have hcond : allowed_file f.filename = false :=
    allowed_file_false_of_ext f.filename hext
  constructor
  · intro hf1
    constructor
    · intro w hw r hr
      rw [dashboard_reject1_update s sid form cfg env1 env2 user w f hu hw hf1 hcond]
        at hr
      cases hp : processWishImage w.wish2_img form.file2 cfg env2 2 user.id with
      | error e =>
        rw [hp] at hr
        exact absurd hr (by simp)
      | ok v2 =>
        rw [hp] at hr
        have hr2 : ({ s with
            wishes := s.wishes.map
                        (updateWishRow user.id (pyStrip form.wish1)
                          (pyStrip form.wish2) w.wish1_img v2) },
            DashOutcome.saved) = r := by simpa using hr
        rw [← hr2]
        exact mapUpdate_proj_eq s.wishes user.id w hw huniq _ _ _ _
          (fun x => (x.participant_id, x.wish1_img)) rfl
    · intro hw r hr
      rw [dashboard_reject1_insert s sid form cfg env1 env2 user f hu hw hf1 hcond]
        at hr
      cases hp : processWishImage none form.file2 cfg env2 2 user.id with
      | error e =>
        rw [hp] at hr
        exact absurd hr (by simp)
      | ok v2 =>
        rw [hp] at hr
        have hr2 : ({ s with
            wishes := s.wishes ++
              [⟨s.wSeq, user.id, pyStrip form.wish1, none, pyStrip form.wish2, v2⟩],
            wSeq := s.wSeq + 1 },
            DashOutcome.saved) = r := by simpa using hr
        rw [← hr2]
        constructor
        · intro x hx hmatch
          rcases List.mem_append.mp hx with hxs | hxnew
          · have := List.find?_eq_none.mp hw x hxs
            simp [hmatch] at this
          · have hxeq : x =
                ⟨s.wSeq, user.id, pyStrip form.wish1, none, pyStrip form.wish2, v2⟩ := by
              simpa using hxnew
            rw [hxeq]
        · simp
  · intro hf2
    constructor
    · intro w hw r hr
      rw [dashboard_reject2_update s sid form cfg env1 env2 user w f hu hw hf2 hcond]
        at hr
      cases hp : processWishImage w.wish1_img form.file1 cfg env1 1 user.id with
      | error e =>
        rw [hp] at hr
        exact absurd hr (by simp)
      | ok v1 =>
        rw [hp] at hr
        have hr2 : ({ s with
            wishes := s.wishes.map
                        (updateWishRow user.id (pyStrip form.wish1)
                          (pyStrip form.wish2) v1 w.wish2_img) },
            DashOutcome.saved) = r := by simpa using hr
        rw [← hr2]
        exact mapUpdate_proj_eq s.wishes user.id w hw huniq _ _ _ _
          (fun x => (x.participant_id, x.wish2_img)) rfl
    · intro hw r hr
      rw [dashboard_reject2_insert s sid form cfg env1 env2 user f hu hw hf2 hcond]
        at hr
      cases hp : processWishImage none form.file1 cfg env1 1 user.id with
      | error e =>
        rw [hp] at hr
        exact absurd hr (by simp)
      | ok v1 =>
        rw [hp] at hr
        have hr2 : ({ s with
            wishes := s.wishes ++
              [⟨s.wSeq, user.id, pyStrip form.wish1, v1, pyStrip form.wish2, none⟩],
            wSeq := s.wSeq + 1 },
            DashOutcome.saved) = r := by simpa using hr
        rw [← hr2]
        constructor
        · intro x hx hmatch
          rcases List.mem_append.mp hx with hxs | hxnew
          · have := List.find?_eq_none.mp hw x hxs
            simp [hmatch] at this
          · have hxeq : x =
                ⟨s.wSeq, user.id, pyStrip form.wish1, v1, pyStrip form.wish2, none⟩ := by
              simpa using hxnew
            rw [hxeq]
        · simp

/-- Witness for C5 at a concrete input: Miguel uploads the disallowed
`"virus.exe"` in slot 1 together with a valid `"foto.png"` in slot 2; the
request completes, slot 2 gets its new local reference, and the slot-1
reference of every row is exactly as stored before. -/
theorem C5_disallowed_extension_keeps_images_witness :
    (({ demoState with
        wishes := [⟨1, 1, "x", some "w1_1_a.png", "y", some "w2_1_foto.png"⟩] },
      DashOutcome.saved) : AppState × DashOutcome).1.wishes.map
        (fun x => (x.participant_id, x.wish1_img)) =
      demoState.wishes.map (fun x => (x.participant_id, x.wish1_img)) :=
  ((C5_disallowed_extension_keeps_images demoState (some 1)
      ⟨"x", "y", some ⟨"virus.exe"⟩, some ⟨"foto.png"⟩⟩ false ⟨none, false⟩
      ⟨none, true⟩ miguelRow ⟨"virus.exe"⟩ (by decide) (by decide) (by decide)).1
    rfl).1 ⟨1, 1, "libro", some "w1_1_a.png", "pluma", none⟩ (by decide)
    ({ demoState with
       wishes := [⟨1, 1, "x", some "w1_1_a.png", "y", some "w2_1_foto.png"⟩] },
     DashOutcome.saved) rfl

/-! ## Claim C4: the upload fallback and the unprotected local save -/

/-- C4: the remote upload helper itself never raises — it is total and
returns `none` both when unconfigured and when the caught exception path is
taken — but the local-disk fallback call `file.save(...)` (app.py line 311)
is wrapped in no try/except: on a request where the remote upload yields
nothing and the local save fails, the dashboard request raises instead of
degrading to "keep the previous image", contradicting the claim. -/
theorem C4_unprotected_local_save_crashes_request :
    upload_to_cloudinary false none = none
  ∧ upload_to_cloudinary true none = none
  ∧ processWishImage (some "w1_1_a.png") (some ⟨"foto.png"⟩) false
      ⟨none, false⟩ 1 1 = .error "OSError: file.save failed"
  ∧ dashboard_post demoState (some 1) ⟨"x", "y", some ⟨"foto.png"⟩, none⟩ false
      ⟨none, false⟩ ⟨none, false⟩ = .error "OSError: file.save failed" :=
  ⟨rfl, rfl, rfl, rfl⟩

/-! ## Claims C6 and C10: the foods POST -/

/-- When the file handling cannot raise, the foods image processing
completes with some reference value. -/
theorem processFoodImage_ok_of_safe (file : Option FileUpload) (cfg : Bool)
    (env : UploadAttempt) (pn : String)
    (h : uploadSafe file cfg env = true) :
    ∃ v, processFoodImage file cfg env pn = .ok v := by
  cases file with
  | none => exact ⟨none, rfl⟩
  | some f =>
    by_cases hcond : (f.filename != "" && allowed_file f.filename) = true
    · cases hrem : upload_to_cloudinary cfg env.remote with
      | some url =>
        exact ⟨some url, by simp only [processFoodImage, hcond, hrem, if_true]⟩
      | none =>
        have hl : env.localOk = true := by
          simp only [uploadSafe] at h
          rw [hcond, hrem] at h
          simpa using h
        exact ⟨some ("food_" ++ pn ++ "_" ++ secure_filename f.filename),
          by simp only [processFoodImage, hcond, hrem, hl, if_true]⟩
    · rw [Bool.not_eq_true] at hcond
      exact ⟨none, by
        simp only [processFoodImage, hcond, Bool.false_eq_true, if_false]⟩

/-- The image reference a completing foods upload stores. -/
def foodImageRef (file : Option FileUpload) (cfg : Bool) (env : UploadAttempt)
    (pn : String) : Option String :=
  match processFoodImage file cfg env pn with
  | .ok v => v
  | .error _ => none

/-- Foods reduction, empty trimmed title with a non-raising upload: the
store is returned untouched together with the single validation flash. -/
theorem foods_post_empty_title (s : AppState) (sid : Option Nat)
    (form : FoodForm) (cfg : Bool) (env : UploadAttempt)
    (htitle : pyStrip form.title = "")
    (hsafe : uploadSafe form.file cfg env = true) :
    foods_post s sid form cfg env =
      .ok (s, [("El título de la comida es obligatorio.", "danger")]) := by
  obtain ⟨v, hv⟩ := processFoodImage_ok_of_safe form.file cfg env
    (resolvePersonName s sid form.person_name) hsafe
  simp only [foods_post, hv, htitle]
  simp

/-- Foods reduction, nonempty trimmed title with a non-raising upload: one
row is appended and the success flash returned. -/
theorem foods_post_insert (s : AppState) (sid : Option Nat)
    (form : FoodForm) (cfg : Bool) (env : UploadAttempt)
    (htitle : pyStrip form.title ≠ "")
    (hsafe : uploadSafe form.file cfg env = true) :
    foods_post s sid form cfg env =
      .ok ({ s with
             foods := s.foods ++
               [⟨s.fSeq, resolvePersonName s sid form.person_name,
                 pyStrip form.title, pyStrip form.description,
                 foodImageRef form.file cfg env
                   (resolvePersonName s sid form.person_name)⟩],
             fSeq := s.fSeq + 1 },
           [("Comida registrada para la cena de Navidad.", "success")]) := by
  obtain ⟨v, hv⟩ := processFoodImage_ok_of_safe form.file cfg env
    (resolvePersonName s sid form.person_name) hsafe
  have himg : foodImageRef form.file cfg env
      (resolvePersonName s sid form.person_name) = v := by
    unfold foodImageRef
    rw [hv]
  simp only [foods_post, hv, himg]
  simp [htitle]

/-- C6 counterexample: a POST to `/comidas` whose title strips to empty but
whose uploaded file hits the unprotected `file.save` failure raises before
the title check, so no validation error is flashed (no insert happens, but
the claimed flash is absent). -/
theorem C6_counterexample_crashing_upload :
    foods_post seededState none ⟨"Ana", " ", "desc", some ⟨"x.png"⟩⟩ false
      ⟨none, false⟩ = .error "OSError: file.save failed"
  ∧ pyStrip " " = ""
  ∧ flashesOf (foods_post seededState none ⟨"Ana", " ", "desc", some ⟨"x.png"⟩⟩
      false ⟨none, false⟩) = [] :=
  ⟨rfl, rfl, rfl⟩

/-- C6 (amended): for every POST to `/comidas` whose title field strips to
empty and whose file handling does not raise (no usable file, or the upload
completes remotely or locally), no row is inserted, the validation error is
flashed, and the whole store — in particular the foods list — is unchanged;
moreover any such POST that completes at all, raising upload or not, leaves
the foods table unchanged. -/
theorem C6_empty_title_no_insert (s : AppState) (sid : Option Nat)
    (form : FoodForm) (cfg : Bool) (env : UploadAttempt)
    (htitle : pyStrip form.title = "") :
    (uploadSafe form.file cfg env = true →
      foods_post s sid form cfg env =
        .ok (s, [("El título de la comida es obligatorio.", "danger")]))
  ∧ (∀ r, foods_post s sid form cfg env = .ok r → r.1.foods = s.foods) := by
  constructor
  · exact foods_post_empty_title s sid form cfg env htitle
  · intro r hr
    simp only [foods_post] at hr
    cases hproc : processFoodImage form.file cfg env
        (resolvePersonName s sid form.person_name) with
    | error e =>
      rw [hproc] at hr
      exact absurd hr (by simp)
    | ok v =>
      rw [hproc] at hr
      simp only [htitle] at hr
      simp at hr
      rw [← hr]

/-- Witness for C6 at a concrete input: an anonymous POST with a blank
title and no file leaves the store untouched and flashes the validation
error. -/
theorem C6_empty_title_no_insert_witness :
    foods_post seededState none ⟨"Ana", " ", "desc", none⟩ true ⟨none, true⟩ =
      .ok (seededState, [("El título de la comida es obligatorio.", "danger")]) :=
  (C6_empty_title_no_insert seededState none ⟨"Ana", " ", "desc", none⟩ true
    ⟨none, true⟩ (by decide)).1 (by decide)

/-- C10: the foods registry requires no authentication — an anonymous POST
(no session) completes and inserts — and when the person-name field strips
to empty, the stored name is the logged-in user's name when the session
resolves to a participant and the literal `"Invitado"` otherwise. -/
theorem C10_foods_anonymous_and_name_default (s : AppState) (sid : Option Nat)
    (form : FoodForm) (cfg : Bool) (env : UploadAttempt)
    (hsafe : uploadSafe form.file cfg env = true)
    (htitle : pyStrip form.title ≠ "")
    (hname : pyStrip form.person_name = "") :
    get_logged_user s none = none
  ∧ (get_logged_user s sid = none →
      foods_post s sid form cfg env =
        .ok ({ s with
               foods := s.foods ++
                 [⟨s.fSeq, "Invitado", pyStrip form.title, pyStrip form.description,
                   foodImageRef form.file cfg env "Invitado"⟩],
               fSeq := s.fSeq + 1 },
             [("Comida registrada para la cena de Navidad.", "success")]))
  ∧ (∀ u, get_logged_user s sid = some u →
      foods_post s sid form cfg env =
        .ok ({ s with
               foods := s.foods ++
                 [⟨s.fSeq, u.name, pyStrip form.title, pyStrip form.description,
                   foodImageRef form.file cfg env u.name⟩],
               fSeq := s.fSeq + 1 },
             [("Comida registrada para la cena de Navidad.", "success")])) := by
  refine ⟨rfl, fun hanon => ?_, fun u hu => ?_⟩
  · have hres : resolvePersonName s sid form.person_name = "Invitado" := by
      simp [resolvePersonName, hname, hanon]
    rw [foods_post_insert s sid form cfg env htitle hsafe, hres]
  · have hres : resolvePersonName s sid form.person_name = u.name := by
      simp [resolvePersonName, hname, hu]
    rw [foods_post_insert s sid form cfg env htitle hsafe, hres]

/-- Witness for C10 at a concrete input: an anonymous POST with an empty
person name inserts a row stored under `"Invitado"`. -/
theorem C10_foods_anonymous_and_name_default_witness :
    foods_post seededState none ⟨"", "Tamales", "ricos", none⟩ true ⟨none, true⟩ =
      .ok ({ seededState with
             foods := seededState.foods ++
               [⟨seededState.fSeq, "Invitado", pyStrip "Tamales", pyStrip "ricos",
                 foodImageRef none true ⟨none, true⟩ "Invitado"⟩],
             fSeq := seededState.fSeq + 1 },
           [("Comida registrada para la cena de Navidad.", "success")]) :=
  (C10_foods_anonymous_and_name_default seededState none ⟨"", "Tamales", "ricos", none⟩
    true ⟨none, true⟩ (by decide) (by decide) (by decide)).2.1 rfl

/-! ## Claim C8: the gift reveal -/

/-- C8: `GET /gift` returns the store exactly as found (the handler only
issues SELECTs); a caller with no `gives_to` sees empty receiver and
receiver-wishes; a caller with a (positive, as SERIAL ids are) `gives_to`
sees as receiver precisely the participant row that id references, and as
receiver-wishes precisely that receiver's wish row when one exists. -/
theorem C8_gift_reveal_read_only (s : AppState) (u : Participant) :
    (gift s u).1 = s
  ∧ (u.givesTo = none → (gift s u).2 = (none, none))
  ∧ (∀ rid, u.givesTo = some rid → 0 < rid →
      ((gift s u).2.1 = none → ∀ p ∈ s.participants, p.id ≠ rid)
      ∧ (∀ r, (gift s u).2.1 = some r →
          r ∈ s.participants ∧ r.id = rid
          ∧ (∀ w, (gift s u).2.2 = some w → w ∈ s.wishes ∧ w.participant_id = rid)
          ∧ ((gift s u).2.2 = none → ∀ w ∈ s.wishes, w.participant_id ≠ rid))) := by
  refine ⟨?_, fun hg => by simp [gift, hg], fun rid hg hpos => ?_⟩
  · unfold gift
    cases u.givesTo with
    | none => rfl
    | some rid =>
      by_cases h0 : (rid == 0) = true
      · simp [h0]
      · rw [Bool.not_eq_true] at h0
        simp only [h0, Bool.false_eq_true, if_false]
        cases s.participants.find? (fun p => p.id == rid) <;> rfl
  · have h0 : (rid == 0) = false := by
      simp only [beq_eq_false_iff_ne]
      omega
    constructor
    · simp only [gift, hg, h0, Bool.false_eq_true, if_false]
      cases hfind : s.participants.find? (fun p => p.id == rid) with
      | none =>
        intro _ p hp hpid
        have := List.find?_eq_none.mp hfind p hp
        simp [hpid] at this
      | some rec =>
        intro hc
        exact absurd hc (by simp)
    · intro r hr
      have hmain := hr
      simp only [gift, hg, h0, Bool.false_eq_true, if_false] at hmain
      cases hfind : s.participants.find? (fun p => p.id == rid) with
      | none =>
        rw [hfind] at hmain
        exact absurd hmain (by simp)
      | some rec =>
        rw [hfind] at hmain
        have hrrec : rec = r := by simpa using hmain
        subst hrrec
        have hrid : rec.id = rid := by
          have := List.find?_some hfind
          simpa using this
        refine ⟨List.mem_of_find?_eq_some hfind, hrid, ?_, ?_⟩
        · intro w hw
          have hw2 := hw
          simp only [gift, hg, h0, Bool.false_eq_true, if_false, hfind] at hw2
          exact ⟨List.mem_of_find?_eq_some hw2,
            by have := List.find?_some hw2; simpa [hrid] using this⟩
        · intro hwn w hwmem
          simp only [gift, hg, h0, Bool.false_eq_true, if_false, hfind] at hwn
          have := List.find?_eq_none.mp hwn w hwmem
          simpa [hrid] using this

/-- Witness for C8 at a concrete input: Miguel's `gives_to` is 12, and the
receiver shown is exactly the stored row of `"Brenda"` (id 12). -/
theorem C8_gift_reveal_read_only_witness :
    (⟨12, "Brenda", "BR88", some 11⟩ : Participant) ∈ seededState.participants
  ∧ (⟨12, "Brenda", "BR88", some 11⟩ : Participant).id = 12 :=
  have h := ((C8_gift_reveal_read_only seededState miguelRow).2.2 12 rfl
    (by decide)).2 ⟨12, "Brenda", "BR88", some 11⟩ (by decide)
  ⟨h.1, h.2.1⟩

/-! ## Claim C9: deleting a missing food row -/

/-- C9: a `POST /comidas/eliminar/<id>` whose id matches no stored food row
still completes with the success flash `"Platillo eliminado."` and the
redirect to the foods page — there is no not-found check — while the foods
table and the upload folder are left untouched. -/
theorem C9_delete_food_missing_id (s : AppState) (fs : List String) (fid : Nat)
    (h : ∀ g ∈ s.foods, g.id ≠ fid) :
    (delete_food s fs fid).state = s
  ∧ (delete_food s fs fid).removedFiles = []
  ∧ (delete_food s fs fid).flash = ("Platillo eliminado.", "info")
  ∧ (delete_food s fs fid).redirectTo = "foods" := by
  have hfind : s.foods.find? (fun g => g.id == fid) = none :=
    List.find?_eq_none.mpr (fun g hg => by simp [h g hg])
  have hfilter : s.foods.filter (fun g => !(g.id == fid)) = s.foods :=
    List.filter_eq_self.mpr (fun g hg => by simp [h g hg])
  refine ⟨?_, ?_, rfl, rfl⟩
  · simp only [delete_food, hfilter]
  · simp only [delete_food, hfind]

/-- Witness for C9 at a concrete input: deleting food id 999 from the
seeded store (whose foods table is empty) flashes success and changes
nothing. -/
theorem C9_delete_food_missing_id_witness :
    (delete_food seededState [] 999).state = seededState
  ∧ (delete_food seededState [] 999).removedFiles = []
  ∧ (delete_food seededState [] 999).flash = ("Platillo eliminado.", "info")
  ∧ (delete_food seededState [] 999).redirectTo = "foods" :=
  C9_delete_food_missing_id seededState [] 999 (by decide)

end Intercambio
